import Mathlib

/-!
Shallow embedding of the "projects gallery" widget of `src/profile/index.js`:
the fetch / normalize / cache / merge / sort / filter / render pipeline.

Modelling conventions:
* JS strings are Lean `String`s manipulated through their character list
  (`String.data`), so every operation is kernel-computable.
* ISO-8601 timestamp strings are abstracted to their epoch value in
  milliseconds (`Nat`); `new Date(iso).getTime()` is that value, and
  `new Date(null).getTime() = 0`.
* `null`/`undefined` fields are `Option`; JS falsy-fallback (`a || b`) is
  modelled explicitly, with `0`, `""`, `null` falsy and any array truthy.
* The network, `localStorage` and the DOM are externalized: fetch results,
  the stored cache slot and control values are explicit parameters, and
  rendering produces the generated markup strings instead of DOM nodes.
-/

namespace Projects

/-- Canonical repository record, the output shape of `normalizeRepo`
(src/profile/index.js lines 171-183). -/
structure Repo where
  name : String
  description : String
  html_url : Option String
  homepage : Option String
  stars : Nat
  forks : Nat
  updated : Option Nat
  language : String
  topics : List String
  deriving DecidableEq, Repr

/-- Raw repository shape as consumed by `normalizeRepo`: both REST list items
and the REST-like objects produced by `fetchPinned`'s GraphQL mapping
(lines 158-168). `primaryLanguageName` stands for `r.primaryLanguage &&
r.primaryLanguage.name`. The `r.repository_topics` fallback of line 181 is
omitted: neither input shape ever carries that key, so that alternative is
dead in the source. -/
structure RawRepo where
  name : String
  description : Option String
  html_url : Option String
  url : Option String
  homepage : Option String
  homepageUrl : Option String
  stargazers_count : Option Nat
  forks_count : Option Nat
  pushed_at : Option Nat
  updated_at : Option Nat
  language : Option String
  primaryLanguageName : Option String
  topics : Option (List String)
  fork : Bool
  archived : Bool
  deriving DecidableEq, Repr

/-- JS `a || b` where `a` is a nullable string: `null` and `""` are falsy. -/
def jsOrStr (a : Option String) (b : String) : String :=
  match a with
  | some s => if s = "" then b else s
  | none => b

/-- JS `a || b` where both sides are nullable strings. -/
def jsOrStrOpt (a b : Option String) : Option String :=
  match a with
  | some s => if s = "" then b else some s
  | none => b

/-- JS `a || b` where `a` is a nullable number: `null` and `0` are falsy. -/
def jsOrNat (a : Option Nat) (b : Nat) : Nat :=
  match a with
  | some n => if n = 0 then b else n
  | none => b

/-- JS `a || b` on nullable timestamps (epoch `0` is falsy). -/
def jsOrTime (a b : Option Nat) : Option Nat :=
  match a with
  | some n => if n = 0 then b else some n
  | none => b

/-- Embedding of `normalizeRepo` (lines 171-183). -/
def normalizeRepo (r : RawRepo) : Repo :=
  { name := r.name
    description := jsOrStr r.description ""
    html_url := jsOrStrOpt r.html_url r.url
    homepage := jsOrStrOpt r.homepage r.homepageUrl
    stars := jsOrNat r.stargazers_count 0
    forks := jsOrNat r.forks_count 0
    updated := jsOrTime r.pushed_at r.updated_at
    language := jsOrStr (jsOrStrOpt r.language r.primaryLanguageName) "Unknown"
    topics := r.topics.getD [] }

/-- ASCII lowercasing of a string, modelling `String.prototype.toLowerCase`. -/
def jsToLower (s : String) : String := String.mk (s.data.map Char.toLower)

/-- Anchored match of a wildcard pattern against a character list, modelling
the regex `new RegExp('^' + p.replace(/\x2a/g, '.x2a') + '$')` of
`matchesPattern` (line 116): `*` matches any substring, every other pattern
character matches itself (faithful for patterns whose non-`*` characters are
regex-literal). -/
def globMatch : List Char → List Char → Bool
  | [], cs => cs.isEmpty
  | '*' :: ps2, cs => cs.tails.any (fun suffix => globMatch ps2 suffix)
  | _ :: _, [] => false
  | p :: ps2, c :: cs2 => (decide (p = c)) && globMatch ps2 cs2

/-- Embedding of `matchesPattern` (lines 112-119); the regex `i` flag is
modelled by lowercasing both sides. An empty pattern list matches nothing. -/
def matchesPattern (name : String) (patterns : List String) : Bool :=
  patterns.any (fun p => globMatch (jsToLower p).data (jsToLower name).data)

/-- Per-character HTML escaping. `escapeHtml` (lines 269-271) runs four
sequential global replaces (`&`, `<`, `>`, `"` in that order); because the
`&` pass runs first and no later pass's output re-triggers an earlier one,
the sequential replaces coincide with this single character-wise map. -/
def escapeChar (c : Char) : String :=
  if c = '&' then "&amp;"
  else if c = '<' then "&lt;"
  else if c = '>' then "&gt;"
  else if c = '"' then "&quot;"
  else String.singleton c

/-- Embedding of `escapeHtml` (lines 269-271). -/
def escapeHtml (s : String) : String := String.join (s.data.map escapeChar)

/-- The literal ellipsis marker appended by `truncate` (line 229); the source
file contains exactly these three characters. -/
def ellipsisMarker : String := "‚Ä¶"

/-- Embedding of `truncate` (lines 227-230): empty (falsy) input yields `""`;
a string longer than `n` yields its first `n - 1` characters (`slice(0, n-1)`)
followed by the ellipsis marker. -/
def truncate (str : String) (n : Nat) : String :=
  if str = "" then ""
  else if n < str.length then String.mk (str.data.take (n - 1)) ++ ellipsisMarker
  else str

/-- Embedding of `relativeTime` (lines 185-201), with `Date.now()` passed in
as `now`. `Math.floor` of a JS division is floor division (`Int.fdiv`). -/
def relativeTime (now : Int) (iso : Option Nat) : String :=
  match iso with
  | none => ""
  | some thenMs =>
    let diff : Int := now - (thenMs : Int)
    let sec := Int.fdiv diff 1000
    if sec < 60 then s!"{sec}s"
    else
      let min := Int.fdiv sec 60
      if min < 60 then s!"{min}m"
      else
        let hr := Int.fdiv min 60
        if hr < 24 then s!"{hr}h"
        else
          let days := Int.fdiv hr 24
          if days < 30 then s!"{days}d"
          else
            let months := Int.fdiv days 30
            if months < 12 then s!"{months}mo"
            else
              let years := Int.fdiv months 12
              s!"{years}y"

/-- Recursion of `dedupeByName` (lines 273-279): the mutable `seen` set of
names threaded through the `filter` callback. -/
def dedupeAux (seen : List String) : List Repo → List Repo
  | [] => []
  | r :: rest =>
    if r.name ∈ seen then dedupeAux seen rest
    else r :: dedupeAux (r.name :: seen) rest

/-- Embedding of `dedupeByName` (lines 273-279). -/
def dedupeByName (arr : List Repo) : List Repo := dedupeAux [] arr

/-- Pinned-membership rank used by the merge-time comparator (lines 315-316):
`0` when some record of the pinned list has the same name
(`findIndex(p => p.name === a.name) >= 0`), else `1`. -/
def pinnedIdx (pinned : List Repo) (r : Repo) : Int :=
  if pinned.any (fun p => p.name == r.name) then 0 else 1

/-- Value of `new Date(r.updated).getTime()` for a record's `updated` field:
`new Date(null)` is the epoch, i.e. `0`. -/
def dateVal : Option Nat → Int
  | none => 0
  | some t => (t : Int)

/-- The composite comparator passed to `merged.sort` in `initProjects`
(lines 313-321). -/
def compareRepos (pinned : List Repo) (pinnedFirst : Bool) (a b : Repo) : Int :=
  if pinnedFirst = true ∧ pinnedIdx pinned a ≠ pinnedIdx pinned b then
    pinnedIdx pinned a - pinnedIdx pinned b
  else if (b.stars : Int) ≠ (a.stars : Int) then (b.stars : Int) - (a.stars : Int)
  else dateVal b.updated - dateVal a.updated

/-- Insert `a` into an already-processed list, placing it after every element
it does not strictly precede: the stable placement rule. -/
def sortInsert {α : Type} (before : α → α → Bool) (a : α) : List α → List α
  | [] => [a]
  | b :: bs => if before a b then a :: b :: bs else b :: sortInsert before a bs

/-- Left-to-right stable insertion pass. -/
def jsSortGo {α : Type} (before : α → α → Bool) (acc : List α) : List α → List α
  | [] => acc
  | a :: rest => jsSortGo before (sortInsert before a acc) rest

/-- Model of `Array.prototype.sort(cmp)` for a consistent comparator:
ECMAScript sorting is stable (ES2019), so the result is the unique stable
order by `cmp`, computed here by stable insertion with
`before a b = (cmp a b < 0)`. -/
def jsSort {α : Type} (before : α → α → Bool) (l : List α) : List α :=
  jsSortGo before [] l

/-- The primary-listing branch of `initProjects` (line 302): keep non-fork,
non-archived repositories whose name matches no exclusion pattern, then
normalize. -/
def primaryMapped (fetched : List RawRepo) (exclude : List String) : List Repo :=
  (fetched.filter
    (fun r => !r.fork && !r.archived && !(matchesPattern r.name exclude))).map normalizeRepo

/-- The pinned-listing branch of `initProjects` (lines 306-307): `null` or an
empty array contribute nothing (`pinned || []`); a non-empty array is
normalized. No exclusion filter is applied on this path. -/
def pinnedMapped (pinnedRes : Option (List RawRepo)) : List Repo :=
  match pinnedRes with
  | some l => if l.length ≠ 0 then l.map normalizeRepo else []
  | none => []

/-- The merge / dedupe / sort portion of `initProjects` (lines 300-323):
pinned records concatenated before primary records, deduplicated by name,
then sorted by the composite comparator. -/
def mergePipeline (fetched : List RawRepo) (pinnedRes : Option (List RawRepo))
    (exclude : List String) (pinnedFirst : Bool) : List Repo :=
  let merged := dedupeByName (pinnedMapped pinnedRes ++ primaryMapped fetched exclude)
  jsSort (fun a b => decide (compareRepos (pinnedMapped pinnedRes) pinnedFirst a b < 0)) merged

/-- CACHE_TTL (line 98): one hour in milliseconds. -/
def CACHE_TTL : Nat := 1000 * 60 * 60

/-- The value stored under the single cache key: `{ ts: Date.now(), data }`
(line 205). JSON serialization is abstracted away: for these plain records a
stringify/parse round trip is the identity. -/
structure CachePayload where
  ts : Nat
  data : List Repo
  deriving DecidableEq, Repr

/-- Embedding of `saveCache` (lines 203-208) on its success path, returning
the new content of the storage slot. -/
def saveCache (now : Nat) (obj : List Repo) : Option CachePayload :=
  some { ts := now, data := obj }

/-- Embedding of `loadCache` (lines 210-219). `!parsed.ts` is the JS falsy
test, true exactly for timestamp `0`; `!parsed.data` is never true for an
array value, so it is not modelled. An entry is returned only while
`now - parsed.ts <= CACHE_TTL` (with JS negative differences, i.e. a write
in the future, also valid -- matched by truncated `Nat` subtraction). -/
def loadCache (now : Nat) (stored : Option CachePayload) : Option (List Repo) :=
  match stored with
  | none => none
  | some parsed =>
    if parsed.ts = 0 then none
    else if CACHE_TTL < now - parsed.ts then none
    else some parsed.data

/-- The single hardcoded fallback record of lines 329-331;
`new Date().toISOString()` becomes the current timestamp. -/
def fallbackRepo (now : Nat) : Repo :=
  { name := "profile", description := "Fallback sample project", html_url := some "#",
    homepage := none, stars := 0, forks := 0, updated := some now, language := "JS",
    topics := ["fallback"] }

/-- Data flow of `initProjects` (lines 294-333) up to the record set handed to
the rendering layer: `repos = loadCache()`, then on a successful primary
fetch the merge pipeline's output replaces it, while on a thrown fetch the
cached value is kept if the pre-fetch read produced one, else the single
fallback record. `fetchRes = none` models the primary fetch throwing. -/
def initProjectsRepos (now : Nat) (stored : Option CachePayload)
    (fetchRes : Option (List RawRepo)) (pinnedRes : Option (List RawRepo))
    (exclude : List String) (pinnedFirst : Bool) : List Repo :=
  match fetchRes with
  | some fetched => mergePipeline fetched pinnedRes exclude pinnedFirst
  | none =>
    match loadCache now stored with
    | some cached => cached
    | none => [fallbackRepo now]

/-- Interpolation of a possibly-undefined value into a template literal:
JS prints `undefined` for a missing value. -/
def jsStr : Option String → String
  | none => "undefined"
  | some s => s

/-- JS truthiness test for a nullable string (`null` and `""` are falsy). -/
def jsTruthy : Option String → Bool
  | none => false
  | some s => s ≠ ""

/-- Markup produced by `buildCard`'s template literal (lines 244-262),
reproduced verbatim including the source file's literal glyphs. `Date.now()`
(used inside `relativeTime`) is passed as `now`. -/
def buildCardHtml (now : Int) (repo : Repo) : String :=
  "\n    <div class=\"card-body\">\n      <div class=\"card-head\">\n        <h3 class=\"project-title\">"
  ++ repo.name
  ++ "</h3>\n        <div class=\"project-topics\"></div>\n      </div>\n      <p class=\"project-desc\" title=\""
  ++ escapeHtml repo.description
  ++ "\">"
  ++ escapeHtml (truncate repo.description 120)
  ++ "</p>\n      <div class=\"project-meta\">\n        <span class=\"meta-item\" title=\"Stars\">‚≠ê "
  ++ toString repo.stars
  ++ "</span>\n        <span class=\"meta-item\" title=\"Forks\">üç¥ "
  ++ toString repo.forks
  ++ "</span>\n        <span class=\"meta-item\" title=\"Updated\">üïí "
  ++ relativeTime now repo.updated
  ++ "</span>\n        <span class=\"meta-lang\" title=\"Primary language\">"
  ++ escapeHtml (if repo.language = "" then "‚Äî" else repo.language)
  ++ "</span>\n      </div>\n      <div class=\"project-actions\">\n        <a class=\"btn btn-primary\" href=\""
  ++ jsStr repo.html_url
  ++ "\" target=\"_blank\" rel=\"noopener\">View Code</a>\n        "
  ++ (if jsTruthy repo.homepage then
        "<a class=\"btn btn-ghost\" href=\"" ++ jsStr repo.homepage
        ++ "\" target=\"_blank\" rel=\"noopener\">Live Demo</a>"
      else "")
  ++ "\n      </div>\n    </div>\n  "

/-- Topic chips appended to a card (line 265): first three topics, inserted
as text nodes via `textContent` (never parsed as markup). -/
def cardTopics (repo : Repo) : List String := repo.topics.take 3

/-- Whether `needle` is a prefix of `hay` (character lists). -/
def listStartsWith : List Char → List Char → Bool
  | _, [] => true
  | [], _ :: _ => false
  | a :: as, b :: bs => (decide (a = b)) && listStartsWith as bs

/-- Whether `needle` occurs contiguously in `hay` (character lists). -/
def listContainsSub : List Char → List Char → Bool
  | hay, needle =>
    listStartsWith hay needle ||
      (match hay with
       | [] => false
       | _ :: t => listContainsSub t needle)

/-- Model of `String.prototype.includes`. -/
def jsIncludes (hay needle : String) : Bool := listContainsSub hay.data needle.data

/-- Model of `String.prototype.trim`: strip leading and trailing whitespace. -/
def jsTrim (s : String) : String :=
  String.mk (((s.data.dropWhile Char.isWhitespace).reverse.dropWhile Char.isWhitespace).reverse)

/-- The sequential filtering portion of `applyFilters` (lines 355-371), over
the current control values: `searchValue`, `langSel`, `topicSel` are the raw
control strings (empty string = nothing selected) and `pinnedOnlyChecked`
the toggle state. `repos` is the record set captured by the closure. -/
def filterStep (pinnedFirst : Bool) (repos : List Repo)
    (searchValue langSel topicSel : String) (pinnedOnlyChecked : Bool) : List Repo :=
  let q := jsTrim (jsToLower searchValue)
  let out0 := repos
  let out1 :=
    if pinnedFirst && pinnedOnlyChecked then
      out0.filter (fun r => (repos.take 10).any (fun p => p.name == r.name))
    else out0
  let out2 :=
    if q ≠ "" then
      out1.filter (fun r =>
        jsIncludes
          (jsToLower (r.name ++ " " ++ r.description ++ " " ++ String.intercalate " " r.topics)) q)
    else out1
  let out3 :=
    if langSel ≠ "" then
      out2.filter (fun r => jsToLower r.language == jsToLower langSel)
    else out2
  let out4 :=
    if topicSel ≠ "" then
      out3.filter (fun r => (r.topics.map jsToLower).contains (jsToLower topicSel))
    else out3
  out4

/-- The sort-mode dispatch of `applyFilters` (lines 374-379);
`localeCompare` is modelled as lexicographic string order. Any other sort
value (including `"pinned"`) keeps the current order. -/
def sortStep (sortValue : String) (out : List Repo) : List Repo :=
  if sortValue = "stars" then
    jsSort (fun a b => decide ((b.stars : Int) - (a.stars : Int) < 0)) out
  else if sortValue = "updated" then
    jsSort (fun a b => decide (dateVal b.updated - dateVal a.updated < 0)) out
  else if sortValue = "az" then
    jsSort (fun a b => decide (a.name < b.name)) out
  else out

/-- What `renderGrid` (lines 384-398) writes into the container: either the
empty-state message or one card per record. -/
inductive Rendered where
  | emptyState (message : String) : Rendered
  | grid (cards : List String) : Rendered
  deriving DecidableEq, Repr

/-- Embedding of `renderGrid` (lines 384-398). -/
def renderGrid (now : Int) (list : List Repo) : Rendered :=
  if list.length = 0 then Rendered.emptyState "No projects match your filters."
  else Rendered.grid (list.map (buildCardHtml now))

/-- One full `applyFilters` pass (lines 355-382): filter, then sort, then
render. -/
def applyFilters (now : Int) (pinnedFirst : Bool) (repos : List Repo)
    (searchValue langSel topicSel sortValue : String) (pinnedOnlyChecked : Bool) : Rendered :=
  renderGrid now
    (sortStep sortValue (filterStep pinnedFirst repos searchValue langSel topicSel pinnedOnlyChecked))

/-- Spec-side composite ordering, written from the spec's words (section 4.5):
pinned membership decides first when pinned-first is enabled, then higher
stars, then more recent `updated` with a missing timestamp as oldest. Used to
check that the comparator `compareRepos` refines it. -/
def specCompositeBefore (pinned : List Repo) (pinnedFirst : Bool) (a b : Repo) : Prop :=
  (pinnedFirst = true ∧ pinnedIdx pinned a < pinnedIdx pinned b)
  ∨ ((pinnedFirst = true → pinnedIdx pinned a = pinnedIdx pinned b)
      ∧ (b.stars < a.stars ∨ (a.stars = b.stars ∧ dateVal b.updated < dateVal a.updated)))

/-- Spec-side query conjunct: empty query, or case-insensitive substring of
name, description and topics joined by spaces. -/
def queryHit (q : String) (r : Repo) : Bool :=
  decide (q = "") ||
    jsIncludes
      (jsToLower (r.name ++ " " ++ r.description ++ " " ++ String.intercalate " " r.topics)) q

/-- Spec-side language conjunct: no language selected, or case-insensitive
equality with the record's language. -/
def langHit (langSel : String) (r : Repo) : Bool :=
  decide (langSel = "") || jsToLower r.language == jsToLower langSel

/-- Spec-side topic conjunct: no topic selected, or case-insensitive
membership in the record's topics. -/
def topicHit (topicSel : String) (r : Repo) : Bool :=
  decide (topicSel = "") || (r.topics.map jsToLower).contains (jsToLower topicSel)

/-- Builder for raw fixtures: an owned, non-archived repository with the
given name, star count and push timestamp. -/
def mkRawRepo (n : String) (st : Nat) (up : Nat) : RawRepo :=
  { name := n, description := none, html_url := some "#", url := none, homepage := none,
    homepageUrl := none, stargazers_count := some st, forks_count := none,
    pushed_at := some up, updated_at := none, language := some "Go",
    primaryLanguageName := none, topics := some [], fork := false, archived := false }

/-- Builder for normalized fixtures. -/
def mkRepo (n : String) (st : Nat) (up : Option Nat) : Repo :=
  { name := n, description := "", html_url := some "#", homepage := none,
    stars := st, forks := 0, updated := up, language := "Go", topics := [] }

/-! Helper lemmas -/

theorem dedupeAux_sublist (seen : List String) (l : List Repo) :
    (dedupeAux seen l).Sublist l := by
  induction l generalizing seen with
  | nil => simp [dedupeAux]
  | cons r rest ih =>
    simp only [dedupeAux]
    split
    · exact (ih seen).trans (List.sublist_cons_self r rest)
    · exact (ih (r.name :: seen)).cons₂ r

theorem dedupeAux_filter (l : List Repo) (seen : List String) (n : String) :
    (dedupeAux seen l).filter (fun r => r.name == n)
      = if n ∈ seen then [] else (l.filter (fun r => r.name == n)).take 1 := by
  induction l generalizing seen with
  | nil => simp [dedupeAux]
  | cons r rest ih =>
    by_cases hn : r.name = n
    · by_cases hseen : r.name ∈ seen
      · have hnseen : n ∈ seen := hn ▸ hseen
        simp [dedupeAux, hseen, ih, hnseen]
      · have hnseen : n ∉ seen := hn ▸ hseen
        have hmem : n ∈ r.name :: seen := by simp [hn]
        simp [dedupeAux, hseen, List.filter_cons, hn, ih, hmem, hnseen]
    · have hne : (r.name == n) = false := by simp [hn]
      have hns : ¬ n = r.name := fun h => hn h.symm
      by_cases hseen : r.name ∈ seen
      · simp [dedupeAux, hseen, ih, List.filter_cons, hne]
      · simp [dedupeAux, hseen, List.filter_cons, hne, ih, List.mem_cons, hns]

theorem sortInsert_perm {α : Type} (before : α → α → Bool) (a : α) (l : List α) :
    (sortInsert before a l).Perm (a :: l) := by
  induction l with
  | nil => simp [sortInsert]
  | cons b bs ih =>
    simp only [sortInsert]
    split
    · exact List.Perm.refl _
    · exact (ih.cons b).trans (List.Perm.swap a b bs)

theorem jsSortGo_perm {α : Type} (before : α → α → Bool) (l acc : List α) :
    (jsSortGo before acc l).Perm (acc ++ l) := by
  induction l generalizing acc with
  | nil => simp [jsSortGo]
  | cons a rest ih =>
    simp only [jsSortGo]
    exact ((ih _).trans (((sortInsert_perm before a acc).append_right rest).trans
      List.perm_middle.symm))

theorem jsSort_perm {α : Type} (before : α → α → Bool) (l : List α) :
    (jsSort before l).Perm l :=
  jsSortGo_perm before l []

theorem dateVal_nonneg (o : Option Nat) : 0 ≤ dateVal o := by
  cases o <;> simp [dateVal]

/-! Claim theorems -/

/-- C4: for every merge input, deduplication keeps, for each name, exactly the
first record carrying that name (so with pinned records concatenated first, a
pinned record always wins over a same-named primary record), and the
survivors form a sublist of the input: records with distinct names all
survive and keep their relative order. -/
theorem dedupeByName_keeps_first_occurrence (l : List Repo) (n : String) :
    (dedupeByName l).filter (fun r => r.name == n) = (l.filter (fun r => r.name == n)).take 1
    ∧ (dedupeByName l).Sublist l := by
  refine ⟨?_, dedupeAux_sublist [] l⟩
  simpa using dedupeAux_filter l [] n

/-- C2 counterexample: with an empty primary listing, a pinned record named
"secret" and the exclusion list containing exactly the pattern "secret", the
record matches the pattern yet appears in the merged output. -/
theorem excluded_pinned_record_rendered :
    matchesPattern "secret" ["secret"] = true
    ∧ (mergePipeline [] (some [mkRawRepo "secret" 1 1]) ["secret"] true).map Repo.name
        = ["secret"] := by decide

/-- C2 (amended): the exclusion patterns are applied only to the primary
listing: every record of the mapped primary listing fails every pattern, and
any record of the merged output whose name matches a pattern must have come
from the pinned listing. -/
theorem exclusion_only_filters_primary (fetched : List RawRepo)
    (pinnedRes : Option (List RawRepo)) (exclude : List String) (pinnedFirst : Bool) :
    (∀ r ∈ primaryMapped fetched exclude, matchesPattern r.name exclude = false)
    ∧ ∀ r ∈ mergePipeline fetched pinnedRes exclude pinnedFirst,
        matchesPattern r.name exclude = true → r ∈ pinnedMapped pinnedRes := by
  have hprim : ∀ r ∈ primaryMapped fetched exclude, matchesPattern r.name exclude = false := by
    intro r hr
    rcases List.mem_map.mp hr with ⟨r0, hr0, hnorm⟩
    have hp := List.of_mem_filter hr0
    have : matchesPattern r0.name exclude = false := by
      rcases Bool.and_eq_true_iff.mp hp with ⟨-, hmp⟩
      simpa using hmp
    have hname : r.name = r0.name := by rw [← hnorm]; rfl
    rw [hname]
    exact this
  refine ⟨hprim, ?_⟩
  intro r hr hmatch
  have hmerged : r ∈ dedupeByName (pinnedMapped pinnedRes ++ primaryMapped fetched exclude) :=
    (jsSort_perm _ _).mem_iff.mp hr
  have hcat : r ∈ pinnedMapped pinnedRes ++ primaryMapped fetched exclude :=
    (dedupeAux_sublist [] _).mem hmerged
  rcases List.mem_append.mp hcat with hpin | hprimMem
  · exact hpin
  · have := hprim r hprimMem
    rw [this] at hmatch
    exact absurd hmatch (by simp)

/-- Witness for the C2 amended theorem at the "secret" example: the matching
merged record is traced back to the pinned listing. -/
theorem exclusion_only_filters_primary_witness :
    normalizeRepo (mkRawRepo "secret" 1 1) ∈ pinnedMapped (some [mkRawRepo "secret" 1 1]) :=
  (exclusion_only_filters_primary [] (some [mkRawRepo "secret" 1 1]) ["secret"] true).2
    (normalizeRepo (mkRawRepo "secret" 1 1)) (by decide) (by decide)

/-- C1 counterexample: the primary fetch fails while the storage slot holds an
entry one millisecond older than the TTL; the claim expects the cached set to
be kept, but the pre-fetch `loadCache` read already rejected the stale entry,
so the single "profile" placeholder is rendered instead. -/
theorem stale_cache_not_used_on_fetch_failure :
    loadCache (CACHE_TTL + 2) (some { ts := 1, data := [mkRepo "x" 1 (some 5)] }) = none
    ∧ initProjectsRepos (CACHE_TTL + 2) (some { ts := 1, data := [mkRepo "x" 1 (some 5)] })
        none none [] true = [fallbackRepo (CACHE_TTL + 2)]
    ∧ initProjectsRepos (CACHE_TTL + 2) (some { ts := 1, data := [mkRepo "x" 1 (some 5)] })
        none none [] true ≠ [mkRepo "x" 1 (some 5)] := by decide

/-- C1 (amended): on a primary fetch failure, the record set previously read
by `loadCache` is kept exactly when the stored entry has a truthy timestamp
and is at most the 1-hour TTL old; with a stale entry, or no entry at all,
the single hardcoded "profile" placeholder is rendered. -/
theorem initProjects_fetchFailure_fallback (now ts : Nat) (data : List Repo)
    (pinnedRes : Option (List RawRepo)) (exclude : List String) (pinnedFirst : Bool) :
    (ts ≠ 0 → now - ts ≤ CACHE_TTL →
      initProjectsRepos now (some { ts := ts, data := data }) none pinnedRes exclude pinnedFirst
        = data)
    ∧ (CACHE_TTL < now - ts →
      initProjectsRepos now (some { ts := ts, data := data }) none pinnedRes exclude pinnedFirst
        = [fallbackRepo now])
    ∧ initProjectsRepos now none none pinnedRes exclude pinnedFirst = [fallbackRepo now] := by
  refine ⟨fun h1 h2 => ?_, fun h1 => ?_, ?_⟩
  · simp [initProjectsRepos, loadCache, h1, Nat.not_lt.mpr h2]
  · by_cases h0 : ts = 0
    · simp [initProjectsRepos, loadCache, h0]
    · simp [initProjectsRepos, loadCache, h0, h1]
  · simp [initProjectsRepos, loadCache]

/-- Witness for the C1 amended theorem at concrete inputs: a fresh entry is
kept, a stale one is replaced by the placeholder. -/
theorem initProjects_fetchFailure_fallback_witness :
    initProjectsRepos 2 (some { ts := 1, data := [mkRepo "x" 1 (some 5)] }) none none [] true
      = [mkRepo "x" 1 (some 5)]
    ∧ initProjectsRepos (CACHE_TTL + 2) (some { ts := 1, data := [mkRepo "x" 1 (some 5)] })
        none none [] true = [fallbackRepo (CACHE_TTL + 2)] :=
  ⟨(initProjects_fetchFailure_fallback 2 1 [mkRepo "x" 1 (some 5)] none [] true).1
      (by decide) (by decide),
    (initProjects_fetchFailure_fallback (CACHE_TTL + 2) 1 [mkRepo "x" 1 (some 5)] none [] true).2.1
      (by decide)⟩

/-- C6: writing a record set at time `t` and reading it back at `tread` yields
the identical set whenever the elapsed time is at most the 1-hour TTL, and a
cache-miss whenever strictly more than the TTL has elapsed. (`t ≠ 0` because
`loadCache` treats a zero timestamp as falsy, and `Date.now()` is never 0.) -/
theorem cache_roundtrip (t tread : Nat) (data : List Repo) (h : t ≠ 0) :
    (tread - t ≤ CACHE_TTL → loadCache tread (saveCache t data) = some data)
    ∧ (CACHE_TTL < tread - t → loadCache tread (saveCache t data) = none) := by
  refine ⟨fun hle => ?_, fun hgt => ?_⟩
  · simp [loadCache, saveCache, h, Nat.not_lt.mpr hle]
  · simp [loadCache, saveCache, h, hgt]

/-- Witness for the C6 theorem: a round trip after 1 ms succeeds, one after
TTL + 1 ms misses. -/
theorem cache_roundtrip_witness :
    loadCache 2 (saveCache 1 [mkRepo "x" 1 (some 5)]) = some [mkRepo "x" 1 (some 5)]
    ∧ loadCache (CACHE_TTL + 2) (saveCache 1 [mkRepo "x" 1 (some 5)]) = none :=
  ⟨(cache_roundtrip 1 2 [mkRepo "x" 1 (some 5)] (by decide)).1 (by decide),
    (cache_roundtrip 1 (CACHE_TTL + 2) [mkRepo "x" 1 (some 5)] (by decide)).2 (by decide)⟩

/-- C5: for the three-record example A(stars 10, updated 1000),
B(stars 10, updated 2000), C(stars 5), the merged order is B, A, C whether or
not pinned-first is enabled (first conjunct); in general the comparator
realizes exactly the composite spec order — pinned membership first when
enabled, then stars descending, then updated descending (second conjunct) —
and a record with no `updated` timestamp sorts as the oldest among records
tied on the earlier keys (third conjunct). -/
theorem initProjects_sort_composite :
    ((mergePipeline [mkRawRepo "a" 10 1000, mkRawRepo "b" 10 2000, mkRawRepo "c" 5 1500]
        none [] true).map Repo.name = ["b", "a", "c"]
      ∧ (mergePipeline [mkRawRepo "a" 10 1000, mkRawRepo "b" 10 2000, mkRawRepo "c" 5 1500]
        none [] false).map Repo.name = ["b", "a", "c"])
    ∧ (∀ (pinned : List Repo) (pinnedFirst : Bool) (a b : Repo),
        compareRepos pinned pinnedFirst a b < 0 ↔ specCompositeBefore pinned pinnedFirst a b)
    ∧ (∀ (pinned : List Repo) (pinnedFirst : Bool) (a b : Repo),
        a.updated = none →
        (pinnedFirst = true → pinnedIdx pinned a = pinnedIdx pinned b) →
        a.stars = b.stars →
        compareRepos pinned pinnedFirst b a ≤ 0) := by
  refine ⟨⟨by decide, by decide⟩, ?_, ?_⟩
  · intro pinned pf a b
    cases pf <;> simp [compareRepos, specCompositeBefore] <;> split_ifs <;> omega
  · intro pinned pf a b hupd hidx hstars
    have hnn := dateVal_nonneg b.updated
    have h0 : dateVal a.updated = 0 := by rw [hupd]; rfl
    cases pf
    · simp [compareRepos, hstars, h0]
      omega
    · have he := hidx rfl
      simp [compareRepos, he, hstars, h0]
      omega

/-- Witness for the C5 theorem: with no pinned set, a record without a
timestamp sorts after a same-stars record that has one, and the comparator
characterization holds at a concrete pair. -/
theorem initProjects_sort_composite_witness :
    compareRepos [] true (mkRepo "b" 3 (some 7)) (mkRepo "a" 3 none) ≤ 0
    ∧ (compareRepos [] false (mkRepo "a" 10 (some 1000)) (mkRepo "b" 10 (some 2000)) < 0
        ↔ specCompositeBefore [] false (mkRepo "a" 10 (some 1000)) (mkRepo "b" 10 (some 2000))) :=
  ⟨initProjects_sort_composite.2.2 [] true (mkRepo "a" 3 none) (mkRepo "b" 3 (some 7))
      (by decide) (fun _ => by decide) (by decide),
    initProjects_sort_composite.2.1 [] false (mkRepo "a" 10 (some 1000))
      (mkRepo "b" 10 (some 2000))⟩

/-- Record whose user-controlled name and description fields carry markup. -/
def evilRepo : Repo :=
  { name := "<img src=x>", description := "<b>d</b>", html_url := some "#",
    homepage := none, stars := 0, forks := 0, updated := none, language := "JS", topics := [] }

set_option maxRecDepth 20000 in
/-- C3: code bug — `buildCard` interpolates `repo.name` into the card markup
with no `escapeHtml` call, so a name containing markup is injected verbatim
(first conjunct), while the description, which does pass through
`escapeHtml`, is not (second and third conjuncts); escaping the name would
have rewritten it (fourth conjunct). -/
theorem buildCard_injects_raw_name :
    jsIncludes (buildCardHtml 0 evilRepo) "<img src=x>" = true
    ∧ jsIncludes (buildCardHtml 0 evilRepo) "<b>d</b>" = false
    ∧ jsIncludes (buildCardHtml 0 evilRepo) (escapeHtml "<b>d</b>") = true
    ∧ escapeHtml "<img src=x>" ≠ "<img src=x>" := by decide

theorem guarded_filter_eq {α : Type} (s : String) (p : α → Bool) (l : List α) :
    (if s ≠ "" then l.filter p else l) = l.filter (fun r => decide (s = "") || p r) := by
  by_cases h : s = ""
  · simp [h]
  · simp [h]

/-- The spec's two example records for the filter conjunction. -/
def fooRepo : Repo :=
  { name := "foo", description := "", html_url := some "#", homepage := none,
    stars := 0, forks := 0, updated := none, language := "Go", topics := ["cli"] }

/-- Second example record for the filter conjunction. -/
def barRepo : Repo :=
  { name := "bar", description := "", html_url := some "#", homepage := none,
    stars := 0, forks := 0, updated := none, language := "Rust", topics := ["web"] }

/-- C7: with the pinned-only toggle unchecked, the filter pass keeps exactly
the records satisfying the conjunction of the query, language and topic
predicates (first conjunct); an empty record list renders the empty-state
message (second conjunct); and on the spec's two-record example, query "foo"
keeps only the first record, language "Rust" keeps only the second, and the
impossible combination renders the empty state (last conjuncts). -/
theorem applyFilters_conjunction (pinnedFirst : Bool) (repos : List Repo)
    (searchValue langSel topicSel : String) :
    filterStep pinnedFirst repos searchValue langSel topicSel false
      = repos.filter (fun r =>
          queryHit (jsTrim (jsToLower searchValue)) r && langHit langSel r && topicHit topicSel r)
    ∧ (∀ now : Int, renderGrid now [] = Rendered.emptyState "No projects match your filters.")
    ∧ filterStep true [fooRepo, barRepo] "foo" "" "" false = [fooRepo]
    ∧ filterStep true [fooRepo, barRepo] "" "Rust" "" false = [barRepo]
    ∧ applyFilters 0 true [fooRepo, barRepo] "foo" "Rust" "" "" false
        = Rendered.emptyState "No projects match your filters." := by
  refine ⟨?_, fun now => rfl, by decide, by decide, by decide⟩
  simp only [filterStep, Bool.and_false, Bool.false_eq_true, if_false]
  rw [guarded_filter_eq, guarded_filter_eq, guarded_filter_eq, List.filter_filter,
    List.filter_filter]
  refine List.filter_congr fun r _ => ?_
  simp only [queryHit, langHit, topicHit]
  simp [Bool.and_comm, Bool.and_left_comm, Bool.and_assoc]

/-- C8: the relative-time formatter yields "45s" for a 45-second age, "1h"
for 90 minutes, "1y" for 400 days (13 thirty-day months, 13/12 = 1 year) and
"2y" for 800 days. -/
theorem relativeTime_examples :
    relativeTime 45000 (some 0) = "45s"
    ∧ relativeTime (90 * 60000) (some 0) = "1h"
    ∧ relativeTime (400 * 86400000) (some 0) = "1y"
    ∧ relativeTime (800 * 86400000) (some 0) = "2y" := by decide

/-- C9: a description longer than 120 characters is rendered as its first 119
characters (`slice(0, 119)`) followed by the ellipsis marker; a description
of at most 120 characters is rendered unchanged. `buildCard` applies
`truncate _ 120` to every card's description. -/
theorem truncate_description (s : String) :
    (120 < s.length → truncate s 120 = String.mk (s.data.take 119) ++ ellipsisMarker)
    ∧ (s.length ≤ 120 → truncate s 120 = s) := by
  constructor
  · intro h
    have hne : s ≠ "" := by
      intro he
      rw [he] at h
      exact absurd h (by decide)
    simp [truncate, hne, h]
  · intro h
    by_cases hs : s = ""
    · simp [truncate, hs]
    · simp [truncate, hs, Nat.not_lt.mpr h]

set_option maxRecDepth 4000 in
/-- Witness for the C9 theorem: a 130-character description becomes 119
characters plus the marker; a short one is unchanged. -/
theorem truncate_description_witness :
    truncate (String.mk (List.replicate 130 'a')) 120
      = String.mk (List.replicate 119 'a') ++ ellipsisMarker
    ∧ truncate "short" 120 = "short" := by
  constructor
  · have h := (truncate_description (String.mk (List.replicate 130 'a'))).1 (by decide)
    rw [h]
    decide
  · exact (truncate_description "short").2 (by decide)

/-- C10: when `initProjects` runs with pinnedFirst = false, the pinned-only
toggle has no effect: the rendered output is the same whatever the checkbox
state, because the first-10 restriction is guarded by
`pinnedFirst && pinnedOnlyFlag`. -/
theorem pinnedOnly_noop_without_pinnedFirst (now : Int) (repos : List Repo)
    (searchValue langSel topicSel sortValue : String) (checked : Bool) :
    applyFilters now false repos searchValue langSel topicSel sortValue checked
      = applyFilters now false repos searchValue langSel topicSel sortValue false := by
  simp [applyFilters, filterStep]

end Projects
